import Mathlib

/-!
# A shallow embedding of `iio.c` (no-OS IIO dispatch core)

This file translates the device/channel/attribute registry, the aggregate
attribute framing, the buffer-transfer coordination and the network connection
multiplexer of `src/libraries/iio/iio.c` into executable Lean definitions, and
proves (or refutes) the specification claims about them.

Modelling conventions:
* C byte buffers are `List Nat` (each element a byte value `< 256`); writing
  through a pointer at an offset is `writeAt`.
* Machine integers are `Nat`/`Int` with explicit `% 2^32` (resp. a two's
  complement reinterpretation `toInt16`) at the points where the C code
  truncates or byte-swaps.
* Device-driver handlers (`show`/`store` function pointers) are external to the
  core; an attribute is modelled by the observable behaviour of its handlers:
  the length the `show` handler returns, the C string it deposits in the
  scratch buffer, and the value the `store` handler returns.
* A few operations of this repository are only declared, not defined, in the
  snapshot (`circular_buffer.c`, the struct layout of `iio.h`, `errno.h`).
  Where such an operation decides a claim its model carries a doc comment
  starting with `Modelled from the spec:`.
* Undefined behaviour that the C code can actually reach (dereferencing a NULL
  interface pointer, indexing a channel array with a negative id, reading a
  freed registry) is made explicit with `Option`/dedicated constructors rather
  than being silently totalised.
-/

/-! ## Error codes

`iio.c` includes `errno.h` and `error.h`, which are not part of the snapshot.
Values are the newlib ones the no-OS tree targets; every claim below depends
only on the codes being the distinct negative numbers named here
(`SUCCESS`/`FAILURE` are no-OS `error.h` conventions, 0 and -1). -/

def SUCCESS : Int := 0

def FAILURE : Int := -1

def ENOENT : Int := 2

def ENOMEM : Int := 12

def ENODEV : Int := 19

def EINVAL : Int := 22

def EAGAIN : Int := 11

def ENOTCONN : Int := 128

/-! ## Byte-level helpers -/

/-- `bswap_constant_32` from no-OS `util.h`: reverse the four bytes of a
32-bit value. -/
def bswap32 (x : Nat) : Nat :=
  (x % 256) * 16777216 + (x / 256 % 256) * 65536 +
    (x / 65536 % 256) * 256 + (x / 16777216 % 256)

/-- Reinterpret the low 16 bits of a natural number as a two's complement
`int16_t` (the C code stores lengths in `int16_t` locals). -/
def toInt16 (x : Nat) : Int :=
  let m := x % 65536
  if m < 32768 then (m : Int) else (m : Int) - 65536

/-- The four bytes, most significant first, of a signed 32-bit value: the byte
sequence that `*(uint32_t *)(buf + j) = bswap_constant_32(v)` deposits in the
buffer on the little-endian targets this driver runs on. -/
def be32 (v : Int) : List Nat :=
  let m := (v % 4294967296).toNat
  [m / 16777216 % 256, m / 65536 % 256, m / 256 % 256, m % 256]

/-- Read back a 32-bit big-endian signed value from four bytes of a buffer
(the framing the spec describes for the aggregate write direction). -/
def be32_at (buf : List Nat) (j : Nat) : Int :=
  let b0 := (buf.getD j 0)
  let b1 := (buf.getD (j+1) 0)
  let b2 := (buf.getD (j+2) 0)
  let b3 := (buf.getD (j+3) 0)
  let m := b0 * 16777216 + b1 * 65536 + b2 * 256 + b3
  if m < 2147483648 then (m : Int) else (m : Int) - 4294967296

/-- `if (n & 0x3) n = ((n >> 2) + 1) << 2;` — round up to a multiple of 4. -/
def roundUp4 (n : Nat) : Nat :=
  if n % 4 = 0 then n else (n / 4 + 1) * 4

/-- Overwrite `buf` starting at offset `off` with the bytes of `data`
(writes falling beyond the end of `buf` are dropped; the theorems only ever
use it within bounds). Models `memcpy`-style stores through `buf + off`. -/
def writeAt : List Nat → Nat → List Nat → List Nat
  | buf, _, [] => buf
  | [], _, _ :: _ => []
  | _ :: bs, 0, d :: ds => d :: writeAt bs 0 ds
  | b :: bs, j+1, ds => b :: writeAt bs j ds

/-! ## Data model (`iio.h` structures, shapes fixed by their use in `iio.c`) -/

/-- `struct iio_attribute`: a named attribute together with the observable
behaviour of its driver-supplied handlers. `show_len` is the value the `show`
handler returns, `show_val` the C string it writes into the 256-byte scratch
buffer (no interior NUL byte, per C string semantics), and `store_ret` the
value the `store` handler returns. -/
structure iio_attribute where
  name : String
  show_len : Int
  show_val : List Nat
  store_ret : Int

/-- `struct iio_channel`: name, direction flag and attribute list. -/
structure iio_channel where
  name : String
  ch_out : Bool
  attributes : List iio_attribute

/-- `struct iio_device`: the device descriptor (attribute list, channel list,
channel count). -/
structure iio_device where
  num_ch : Nat
  attributes : List iio_attribute
  channels : List iio_channel

/-- `struct iio_interface`: a registry record. The four optional transfer
callbacks are `none` when the corresponding function pointer is NULL; when
present they are modelled by the value they return given the arguments the
dispatcher passes them (byte count / offset and the stored channel mask). -/
structure iio_interface where
  name : String
  iio : iio_device
  ch_mask : Nat
  transfer_dev_to_mem : Option (Nat → Nat → Int)
  read_data : Option (Nat → Nat → Nat → Int)
  transfer_mem_to_dev : Option (Nat → Nat → Int)
  write_data : Option (Nat → Nat → Nat → Int)

/-- `struct element_info`. -/
structure element_info where
  device_name : String
  channel_name : String
  attribute_name : String
  ch_out : Bool

/-! ## Aggregate read (`iio_read_all_attr`, iio.c:332-361)

The C loop writes into the caller's buffer at a cursor `j`: four bytes of
byte-swapped length, then — only for a non-negative length — `sprintf`s the
handler's C string (its bytes plus one terminating NUL) and advances the
cursor past the length rounded up to a multiple of 4. The NULL-pointer guards
on `attributes`/`buf` concern pointer validity only and have no counterpart on
lists. -/

def iio_read_all_attr_go : List iio_attribute → List Nat → Nat → List Nat × Nat
  | [], buf, j => (buf, j)
  | a :: rest, buf, j =>
    let buf1 := writeAt buf j (be32 a.show_len)
    let j1 := j + 4
    if 0 ≤ a.show_len then
      let buf2 := writeAt buf1 j1 (a.show_val ++ [0])
      iio_read_all_attr_go rest buf2 (j1 + roundUp4 a.show_len.toNat)
    else
      iio_read_all_attr_go rest buf1 j1

/-- `iio_read_all_attr`: returns the final buffer and the returned byte count
`j`. (`j` is an `int16_t` in C; the model is faithful while the total stays
below 2^15, which the main theorem assumes.) -/
def iio_read_all_attr (attrs : List iio_attribute) (buf : List Nat) :
    List Nat × Nat :=
  iio_read_all_attr_go attrs buf 0

/-- The record the spec's framing contract prescribes for one attribute:
4 big-endian length bytes, then — for a non-negative length — the value bytes
zero-padded to a multiple of 4. Stated from the spec for comparison with
`iio_read_all_attr`. -/
def attr_record_spec (a : iio_attribute) : List Nat :=
  be32 a.show_len ++
    if 0 ≤ a.show_len then
      a.show_val ++ List.replicate (roundUp4 a.show_val.length - a.show_val.length) 0
    else []

/-- The whole framed stream, records in attribute-list order. -/
def framed_spec : List iio_attribute → List Nat
  | [] => []
  | a :: rest => attr_record_spec a ++ framed_spec rest

/-- Total length of the framed stream. -/
def framed_len (attrs : List iio_attribute) : Nat :=
  (framed_spec attrs).length

/-! ## Aggregate write (`iio_write_all_attr`, iio.c:372-395)

The C code computes `attr_length = bswap_constant_32((uint32_t)(buf + j))`:
it byte-swaps the *address* `buf + j` cast to `uint32_t`, not the four data
bytes at that address, and truncates the result into an `int16_t`. The model
therefore takes the buffer's base address `addr` as an explicit parameter; a
NULL `buf` is address 0, and the `if (!buf) return FAILURE;` guard at
iio.c:381 fires exactly there (the `if (!attributes)` guard concerns pointer
validity of the array itself and has no counterpart on lists). Past the
guards, each iteration calls the attribute's `store` handler with the cursor
slice and that length; the calls are recorded in order, and the function
returns the caller-supplied `len` unconditionally. -/

/-- One recorded invocation of a `store` handler: the length argument passed
and the buffer bytes the data pointer exposes (the `length`-byte slice at the
cursor when `length` is non-negative). -/
structure store_call where
  length : Int
  data : List Nat

def iio_write_all_attr_go (addr : Nat) (buf : List Nat) :
    List iio_attribute → Int → List store_call → List store_call
  | [], _, log => log
  | _ :: rest, j, log =>
    let attr_length := toInt16 (bswap32 ((addr + j.toNat) % 4294967296))
    let j1 := j + 4
    let call : store_call :=
      ⟨attr_length, (buf.drop j1.toNat).take attr_length.toNat⟩
    let j2 := j1 + attr_length
    let j3 := if j2 % 4 = 0 then j2 else (j2 / 4 + 1) * 4
    iio_write_all_attr_go addr buf rest j3 (log ++ [call])

/-- `iio_write_all_attr`: returns the value the dispatcher returns (`FAILURE`
for a NULL buffer, otherwise always the caller-supplied `len`) and the
sequence of `store` invocations it performed. -/
def iio_write_all_attr (addr : Nat) (buf : List Nat)
    (attrs : List iio_attribute) (len : Int) : Int × List store_call :=
  if addr = 0 then (FAILURE, [])
  else (len, iio_write_all_attr_go addr buf attrs 0 [])

/-! ## Name/id lookups (iio.c:239-321) -/

/-- `iio_get_channel_number` (iio.c:239-252): scan the name; every time the
cursor stands on a digit, `strtol` consumes the maximal digit run and its
value becomes the candidate id; otherwise advance one character. A name
without digits leaves the initial `FAILURE` (-1) sentinel. (`strtol` clamps
at `LONG_MAX`; the theorems assume the final run's value fits in 31 bits.) -/
def digits_val (l : List Char) : Nat :=
  l.foldl (fun acc c => acc * 10 + (c.toNat - 48)) 0

def iio_get_channel_number_go : List Char → Int → Int
  | [], ch_num => ch_num
  | c :: rest, ch_num =>
    if c.isDigit then
      iio_get_channel_number_go (rest.dropWhile Char.isDigit)
        (digits_val (c :: rest.takeWhile Char.isDigit))
    else
      iio_get_channel_number_go rest ch_num
termination_by l _ => l.length
decreasing_by
  · exact Nat.lt_succ_of_le ((List.dropWhile_sublist _).length_le)
  · exact Nat.lt_succ_self _

def iio_get_channel_number (ch : String) : Int :=
  iio_get_channel_number_go ch.data FAILURE

/-- `iio_get_channel_id` (iio.c:261-276): `-EINVAL` on an empty channel array,
else the index of the first channel whose (name, direction) both match, else
`-ENOENT`. -/
def iio_get_channel_id_loop : List iio_channel → String → Bool → Nat → Int
  | [], _, _, _ => -ENOENT
  | c :: rest, channel, out, i =>
    if c.name = channel ∧ c.ch_out = out then (i : Int)
    else iio_get_channel_id_loop rest channel out (i + 1)

def iio_get_channel_id (channel : String) (channels : List iio_channel)
    (ch_out : Bool) : Int :=
  match channels with
  | [] => -EINVAL
  | _ => iio_get_channel_id_loop channels channel ch_out 0

/-- `iio_get_attribute_id` (iio.c:284-299): same shape over attribute names. -/
def iio_get_attribute_id_loop : List iio_attribute → String → Nat → Int
  | [], _, _ => -ENOENT
  | a :: rest, attr, i =>
    if a.name = attr then (i : Int)
    else iio_get_attribute_id_loop rest attr (i + 1)

def iio_get_attribute_id (attr : String) (attrs : List iio_attribute) : Int :=
  match attrs with
  | [] => -EINVAL
  | _ => iio_get_attribute_id_loop attrs attr 0

/-- `iio_get_interface` (iio.c:307-321): first registry record whose name
matches, NULL (`none`) otherwise. -/
def iio_get_interface (device_name : String) (l : List iio_interface) :
    Option iio_interface :=
  l.find? (fun i => i.name == device_name)

/-! ## Single/aggregate attribute dispatch (`iio_rd_wr_attribute`, iio.c:454-499)

The result type records either the value the C function returns, or the fact
that the C code indexed `iio_device->channels` with the negative id returned
by a failed channel lookup — an out-of-bounds access `iio_rd_wr_attribute`
performs because it never tests `channel_id < 0` (iio.c:492-495). Alongside
the result we return the names of the attributes whose show/store handler was
invoked, in invocation order. -/

inductive rd_wr_result where
  | ret (v : Int)
  | oob_channel (id : Int)
deriving DecidableEq

/-- `iio_rd_wr_channel_attribute` (iio.c:407-442). The channel context passed
to handlers is `(iio_get_channel_number channel_name, ch_out)`; handler
behaviour is already baked into the attribute model, so the context does not
appear in the outcome. `addr`/`buf`/`len` feed the aggregate paths. -/
def iio_rd_wr_channel_attribute (el : element_info) (addr : Nat)
    (buf : List Nat) (len : Nat) (ch : iio_channel) (is_write : Bool) :
    rd_wr_result × List String :=
  if el.attribute_name = "" then
    if is_write then
      (.ret (iio_write_all_attr addr buf ch.attributes (len : Int)).1,
        ch.attributes.map (·.name))
    else
      (.ret ((iio_read_all_attr ch.attributes buf).2 : Int),
        ch.attributes.map (·.name))
  else
    let attribute_id := iio_get_attribute_id el.attribute_name ch.attributes
    if 0 ≤ attribute_id then
      match ch.attributes.get? attribute_id.toNat with
      | some a => (.ret (if is_write then a.store_ret else a.show_len), [a.name])
      | none => (.ret (-ENOENT), [])
    else (.ret (-ENOENT), [])

/-- `iio_rd_wr_attribute` (iio.c:454-499). -/
def iio_rd_wr_attribute (el : element_info) (addr : Nat) (buf : List Nat)
    (len : Nat) (dev : iio_device) (is_write : Bool) :
    rd_wr_result × List String :=
  if el.channel_name = "" then
    if el.attribute_name = "" then
      if is_write then
        (.ret (iio_write_all_attr addr buf dev.attributes (len : Int)).1,
          dev.attributes.map (·.name))
      else
        (.ret ((iio_read_all_attr dev.attributes buf).2 : Int),
          dev.attributes.map (·.name))
    else
      let attribute_id := iio_get_attribute_id el.attribute_name dev.attributes
      if attribute_id < 0 then (.ret (-ENOENT), [])
      else
        match dev.attributes.get? attribute_id.toNat with
        | some a => (.ret (if is_write then a.store_ret else a.show_len), [a.name])
        | none => (.ret (-ENOENT), [])
  else
    let channel_id := iio_get_channel_id el.channel_name dev.channels el.ch_out
    -- The C code indexes dev.channels[channel_id] without a sign test.
    if channel_id < 0 then (.oob_channel channel_id, [])
    else
      match dev.channels.get? channel_id.toNat with
      | some ch => iio_rd_wr_channel_attribute el addr buf len ch is_write
      | none => (.oob_channel channel_id, [])

/-! ## Registry lifecycle (`iio_register` / `iio_unregister`, iio.c:876-945)

The global `iio_interfaces` pointer starts NULL, is allocated by the first
`iio_register`, and — the decisive point for claim C3 — is freed by
`iio_unregister` without ever being re-pointed at the rebuilt record array the
function allocates (iio.c:920-944 build `interfaces` and then leak it; the
`free(iio_interfaces)` at iio.c:942 leaves the global dangling). Operations
on a NULL or dangling registry whose C behaviour is undefined return `none`.
Allocation is assumed to succeed (the `-ENOMEM` arms are not modelled). -/

inductive reg_state where
  | null
  | live (l : List iio_interface)
  | dangling

def iio_register_s : reg_state → iio_interface → Option (reg_state × Int)
  | .null, i => some (.live [i], SUCCESS)
  | .live l, i => some (.live (l ++ [i]), SUCCESS)
  | .dangling, _ => none

/-- `iio_unregister` observable behaviour: it returns SUCCESS exactly when
some record's name matches (its scan skips *every* matching record while
computing the leaked array), and in every case the global registry container
is freed, leaving the registry dangling. On a NULL registry the function
dereferences NULL. -/
def iio_unregister_s : reg_state → iio_interface → Option (reg_state × Int)
  | .null, _ => none
  | .live l, i =>
    some (.dangling, if l.any (fun r => r.name == i.name) then SUCCESS else FAILURE)
  | .dangling, _ => none

/-- `iio_get_interface` as it acts on the global registry state: a NULL
registry yields "not found" (the function tests `!iio_interfaces`), a live one
scans, and a dangling one reads freed memory (undefined). -/
def iio_get_interface_s : reg_state → String → Option (Option iio_interface)
  | .null, _ => some none
  | .live l, name => some (iio_get_interface name l)
  | .dangling, _ => none

/-! ## Open / mask (`iio_open_dev` / `iio_get_mask`, iio.c:639-693) -/

/-- In C `iface->ch_mask = mask` mutates the record `iio_get_interface`
returned, i.e. the first record with the device's name. -/
def set_mask_first : List iio_interface → String → Nat → List iio_interface
  | [], _, _ => []
  | i :: rest, device, mask =>
    if i.name == device then { i with ch_mask := mask } :: rest
    else i :: set_mask_first rest device mask

/-- `iio_open_dev` (iio.c:639-657): `-ENODEV` for an unsupported device; then
`ch_mask = 0xFFFFFFFF >> (32 - num_ch)` and `-ENOENT` — not `-EINVAL` — when
`mask & ~ch_mask` is non-zero; otherwise store the mask. (`sample_size` is
accepted and ignored, as in C.) -/
def iio_open_dev (l : List iio_interface) (device : String)
    (sample_size : Nat) (mask : Nat) : List iio_interface × Int :=
  match iio_get_interface device l with
  | none => (l, -ENODEV)
  | some iface =>
    let ch_mask := 4294967295 >>> (32 - iface.iio.num_ch)
    if mask &&& (4294967295 ^^^ ch_mask) ≠ 0 then (l, -ENOENT)
    else (set_mask_first l device mask, SUCCESS)

/-- `iio_get_mask` (iio.c:682-693): the returned code together with the value
written through the out pointer. -/
def iio_get_mask (l : List iio_interface) (device : String) : Int × Option Nat :=
  match iio_get_interface device l with
  | none => (-ENODEV, none)
  | some iface => (SUCCESS, some iface.ch_mask)

/-! ## Buffer transfer coordination (iio.c:701-772)

None of the four functions checks the result of `iio_get_interface` before
dereferencing it: for an unregistered device each one dereferences NULL.
`none` marks that undefined behaviour. A registered interface whose callback
pointer is NULL yields `-ENOENT`. -/

def iio_transfer_dev_to_mem (l : List iio_interface) (device : String)
    (bytes_count : Nat) : Option Int :=
  match iio_get_interface device l with
  | none => none
  | some iface =>
    match iface.transfer_dev_to_mem with
    | some f => some (f bytes_count iface.ch_mask)
    | none => some (-ENOENT)

def iio_read_dev (l : List iio_interface) (device : String) (offset : Nat)
    (bytes_count : Nat) : Option Int :=
  match iio_get_interface device l with
  | none => none
  | some iface =>
    match iface.read_data with
    | some f => some (f offset bytes_count iface.ch_mask)
    | none => some (-ENOENT)

def iio_transfer_mem_to_dev (l : List iio_interface) (device : String)
    (bytes_count : Nat) : Option Int :=
  match iio_get_interface device l with
  | none => none
  | some iface =>
    match iface.transfer_mem_to_dev with
    | some f => some (f bytes_count iface.ch_mask)
    | none => some (-ENOENT)

def iio_write_dev (l : List iio_interface) (device : String) (offset : Nat)
    (bytes_count : Nat) : Option Int :=
  match iio_get_interface device l with
  | none => none
  | some iface =>
    match iface.write_data with
    | some f => some (f offset bytes_count iface.ch_mask)
    | none => some (-ENOENT)

/-! ## Connection multiplexer (iio.c:116-231, 854-867)

The current-connection slot `desc->current_sock` has three states: NULL
(`empty`), a live socket (`active`), and the sentinel `(void *)-1` (`dead`).
Connections are identified by `Nat` handles. The socket queue lives in a
`circular_buffer` whose implementation is not part of the snapshot. -/

inductive sock_slot where
  | empty
  | active (c : Nat)
  | dead
deriving DecidableEq

structure mux_state where
  sockets : List Nat
  current : sock_slot
deriving DecidableEq

def MAX_SOCKET_TO_HANDLE : Nat := 4

/-- Modelled from the spec: `circular_buffer.c` is not in the snapshot.
`_push_sock`/`cb_write` append one connection at the tail of a bounded FIFO
whose capacity (`MAX_SOCKET_TO_HANDLE`, iio.c:62, fixed by `cb_init` at
iio.c:1008) bounds memory; pushing onto a full queue fails with a negative
code. -/
def cb_push (q : List Nat) (c : Nat) : Except Int (List Nat) :=
  if q.length < MAX_SOCKET_TO_HANDLE then .ok (q ++ [c]) else .error FAILURE

/-- Modelled from the spec: `_pop_sock`/`cb_read` remove the head of the
FIFO; reading from an empty queue fails. -/
def cb_pop (q : List Nat) : Except Int (Nat × List Nat) :=
  match q with
  | [] => .error FAILURE
  | c :: rest => .ok (c, rest)

/-- The observable outcome of `iio_step` (iio.c:854-867) up to the point where
it hands control to `tinyiiod_read_command`: the returned error (if any), the
multiplexer state left behind, and whether a protocol command was read at
all. -/
structure step_out where
  ret : Except Int Unit
  st : mux_state
  command_read : Bool

/-- `iio_step`: if the current slot holds a live socket (non-NULL and not the
-1 sentinel), push it on the queue tail — returning immediately, current slot
untouched, on push failure — then clear the slot and read one command. -/
def iio_step (s : mux_state) : step_out :=
  match s.current with
  | .active c =>
    match cb_push s.sockets c with
    | .error e => ⟨.error e, s, false⟩
    | .ok q => ⟨.ok (), ⟨q, .empty⟩, true⟩
  | _ => ⟨.ok (), ⟨s.sockets, .empty⟩, true⟩

/-- Push each newly accepted connection at the tail
(`_get_next_socket`'s accept loop, iio.c:147-163). -/
def push_list (q : List Nat) : List Nat → Except Int (List Nat)
  | [] => .ok q
  | c :: rest =>
    match cb_push q c with
    | .error e => .error e
    | .ok q' => push_list q' rest

/-- Result of one dispatch step in the network configuration. `blocked` marks
the accept-poll loop spinning with no queued and no incoming connection — the
C code never returns in that situation. -/
inductive step_result where
  | ok (s : mux_state)
  | err (code : Int)
  | blocked
deriving DecidableEq

/-- `_get_next_socket` (iio.c:139-172) with the pending `socket_accept`
results supplied as `newConns`: queue every pending connection, then pop the
head of the queue into the current slot. -/
def get_next_socket (s : mux_state) (newConns : List Nat) : step_result :=
  match push_list s.sockets newConns with
  | .error e => .err e
  | .ok q =>
    match cb_pop q with
    | .error _ => .blocked
    | .ok (c, rest) => .ok ⟨rest, .active c⟩

/-- One full dispatch step in the network configuration: the `iio_step`
rotation followed by the first `iio_phy_read` of the command interpreter,
which (current slot being NULL) selects the next connection via
`_get_next_socket`. This is the "which connection is current" part of a step;
the byte traffic itself is `network_read` below. -/
def dispatch_step (s : mux_state) (newConns : List Nat) : step_result :=
  let o := iio_step s
  match o.ret with
  | .error e => .err e
  | .ok _ => get_next_socket o.st newConns

/-- Iterated dispatch steps with no incoming connections. -/
def dispatch_iter : Nat → mux_state → step_result
  | 0, s => .ok s
  | n + 1, s =>
    match dispatch_step s [] with
    | .ok s' => dispatch_iter n s'
    | r => r

/-! ## Phy-level network read (`network_read`, iio.c:174-208)

`socket_recv` outcomes are supplied as an oracle trace: `ok data` delivers
`data.length` bytes (written at the running offset), `err e` is a negative
return. The read loop runs until `len` bytes accumulate or a call errors; an
error writes the sentinel byte `'*'` (42) at the start of the destination
buffer and breaks. After the loop, `-ENOTCONN` from the last call releases
the socket and sets the slot to the -1 sentinel. The function returns the
byte count accumulated so far. `none` means the oracle trace ran out before
the loop finished (the theorems always supply enough). -/

inductive recv_result where
  | ok (data : List Nat)
  | err (code : Int)

def network_read_loop :
    List recv_result → Nat → Nat → List Nat → Option (Nat × Int × List Nat)
  | [], _, _, _ => none
  | .err e :: _, i, _, buf => some (i, e, writeAt buf 0 [42])
  | .ok data :: rest, i, len, buf =>
    let buf' := writeAt buf i data
    let i' := i + data.length
    if i' < len then network_read_loop rest i' len buf'
    else some (i', (data.length : Int), buf')

def network_read (s : mux_state) (trace : List recv_result) (len : Nat)
    (buf : List Nat) : Option (Int × mux_state × List Nat) :=
  match s.current with
  | .dead => some (-1, s, buf)
  | .empty =>
    match get_next_socket s [] with
    | .err e => some (e, s, buf)
    | .blocked => none
    | .ok s' =>
      match network_read_loop trace 0 len buf with
      | none => none
      | some (i, ret, buf') =>
        if ret = -ENOTCONN then some ((i : Int), ⟨s'.sockets, .dead⟩, buf')
        else some ((i : Int), s', buf')
  | .active _ =>
    match network_read_loop trace 0 len buf with
    | none => none
    | some (i, ret, buf') =>
      if ret = -ENOTCONN then some ((i : Int), ⟨s.sockets, .dead⟩, buf')
      else some ((i : Int), s, buf')

/-! ## Concrete instances used by counterexamples and witnesses -/

/-- A 4-channel device with no attributes and no callbacks. -/
def demo_dev4 : iio_interface :=
  ⟨"dev", ⟨4, [], []⟩, 0, none, none, none, none⟩

/-- An interface named "A" (resp. "B") with an empty descriptor. -/
def demo_ifA : iio_interface := ⟨"A", ⟨0, [], []⟩, 0, none, none, none, none⟩

def demo_ifB : iio_interface := ⟨"B", ⟨0, [], []⟩, 0, none, none, none, none⟩

/-- Attributes for the aggregate-framing witnesses: one show handler that
returns 5 bytes "hello", one that fails with -EINVAL. -/
def demo_attr_hello : iio_attribute := ⟨"raw", 5, [104, 101, 108, 108, 111], 0⟩

def demo_attr_fail : iio_attribute := ⟨"bad", -22, [], 0⟩

/-- The aggregate-write failing input: a buffer whose first record declares
5 value bytes ("hello") in big-endian framing. The bug theorem places it at
base address 0x20000000 (a typical embedded SRAM base, non-NULL). -/
def demo_wr_buf : List Nat := [0, 0, 0, 5, 104, 101, 108, 108, 111, 0, 0, 0]

/-- A device with a single input channel "voltage0" carrying one attribute. -/
def demo_dev_ch : iio_device :=
  ⟨1, [], [⟨"voltage0", false, [demo_attr_hello]⟩]⟩

/-- Total byte count delivered by a list of successful `socket_recv` calls. -/
def sum_lens (ds : List (List Nat)) : Nat := (ds.map List.length).sum

/-- An interface named "C" used for the never-registered unregister case. -/
def demo_ifC : iio_interface := ⟨"C", ⟨0, [], []⟩, 0, none, none, none, none⟩

/-- An interface whose transfer callbacks are present and report the arguments
they were handed (so delegation of byte count and stored mask is visible). -/
def demo_if_cb : iio_interface :=
  ⟨"dev", ⟨4, [], []⟩, 5,
    some (fun bc mask => (bc * 1000 + mask : Int)),
    some (fun off bc mask => (off * 100 + bc * 10 + mask : Int)),
    none, none⟩

/-! ## Helper lemmas -/

theorem length_writeAt : ∀ (buf : List Nat) (off : Nat) (data : List Nat),
    (writeAt buf off data).length = buf.length
  | buf, off, [] => by cases buf <;> cases off <;> simp [writeAt]
  | [], _, _ :: _ => by simp [writeAt]
  | _ :: bs, 0, _ :: ds => by simp [writeAt, length_writeAt bs 0 ds]
  | _ :: bs, o+1, d :: ds => by simp [writeAt, length_writeAt bs o (d :: ds)]

theorem writeAt_append : ∀ (pre rest data : List Nat),
    writeAt (pre ++ rest) pre.length data = pre ++ writeAt rest 0 data
  | [], rest, data => by simp
  | p :: ps, rest, data => by
    cases data with
    | nil => simp [writeAt]
    | cons d ds =>
      show writeAt (p :: (ps ++ rest)) (ps.length + 1) (d :: ds) = _
      simp [writeAt, writeAt_append ps rest (d :: ds)]

theorem writeAt_zero : ∀ (data rest : List Nat), data.length ≤ rest.length →
    writeAt rest 0 data = data ++ rest.drop data.length
  | [], rest, _ => by simp [writeAt]
  | d :: ds, [], h => by simp at h
  | d :: ds, r :: rs, h => by
    simp [writeAt, writeAt_zero ds rs (by simpa using h)]

theorem drop_replicate (n m : Nat) (a : Nat) :
    (List.replicate n a).drop m = List.replicate (n - m) a := by
  induction m generalizing n with
  | zero => simp
  | succ m ih =>
    cases n with
    | zero => simp
    | succ n => simpa [List.replicate_succ] using ih n

theorem le_roundUp4 (n : Nat) : n ≤ roundUp4 n := by
  unfold roundUp4; split <;> omega

theorem attr_record_spec_length (a : iio_attribute) :
    (attr_record_spec a).length =
      4 + if 0 ≤ a.show_len then roundUp4 a.show_val.length else 0 := by
  unfold attr_record_spec
  split <;> simp [be32]
  have := le_roundUp4 a.show_val.length
  omega

theorem framed_len_cons (a : iio_attribute) (rest : List iio_attribute) :
    framed_len (a :: rest) = (attr_record_spec a).length + framed_len rest := by
  simp [framed_len, framed_spec]

theorem length_be32 (v : Int) : (be32 v).length = 4 := by
  simp [be32]

theorem zero_cons_split (m p q : Nat) (h : m + 1 = p + q) :
    (0 : Nat) :: List.replicate m 0 = List.replicate p 0 ++ List.replicate q 0 := by
  rw [← List.replicate_succ, h, List.replicate_add]

/-- Core invariant of the aggregate read loop: run over a zero-filled region
following an already-written prefix, the loop appends exactly the spec's
framed records and advances the cursor by their total length. -/
theorem read_all_go_spec : ∀ (rs : List iio_attribute) (pre : List Nat) (k : Nat),
    (∀ a ∈ rs, 0 ≤ a.show_len → a.show_val.length = a.show_len.toNat) →
    framed_len rs + 1 ≤ k →
    iio_read_all_attr_go rs (pre ++ List.replicate k 0) pre.length =
      (pre ++ framed_spec rs ++ List.replicate (k - framed_len rs) 0,
        pre.length + framed_len rs)
  | [], pre, k, _, _ => by
    simp [iio_read_all_attr_go, framed_spec, framed_len]
  | a :: rest, pre, k, hc, hk => by
    have hrec := attr_record_spec_length a
    have hcons := framed_len_cons a rest
    have h4k : 4 ≤ k := by omega
    have hc' : ∀ x ∈ rest, 0 ≤ x.show_len → x.show_val.length = x.show_len.toNat :=
      fun x hx => hc x (List.mem_cons_of_mem _ hx)
    have hw1 : writeAt (pre ++ List.replicate k 0) pre.length (be32 a.show_len)
        = (pre ++ be32 a.show_len) ++ List.replicate (k - 4) 0 := by
      rw [writeAt_append, writeAt_zero _ _ (by simp [length_be32]; omega),
        drop_replicate, length_be32, List.append_assoc]
    by_cases h0 : 0 ≤ a.show_len
    · have hL : a.show_val.length = a.show_len.toNat := hc a (by simp) h0
      have hLP : a.show_val.length ≤ roundUp4 a.show_val.length :=
        le_roundUp4 a.show_val.length
      have hrl : (attr_record_spec a).length = 4 + roundUp4 a.show_val.length := by
        rw [hrec, if_pos h0]
      have hkP : 4 + roundUp4 a.show_val.length + framed_len rest + 1 ≤ k := by omega
      have hw2 : writeAt ((pre ++ be32 a.show_len) ++ List.replicate (k - 4) 0)
          (pre.length + 4) (a.show_val ++ [0])
          = ((pre ++ be32 a.show_len) ++ (a.show_val ++ [0])) ++
              List.replicate (k - 4 - (a.show_val.length + 1)) 0 := by
        have hlen : (pre ++ be32 a.show_len).length = pre.length + 4 := by
          simp [length_be32]
        rw [← hlen, writeAt_append,
          writeAt_zero _ _ (by simp; omega), drop_replicate]
        simp
      have hk' : framed_len rest + 1 ≤ k - 4 - roundUp4 a.show_val.length := by omega
      have hIH := read_all_go_spec rest
        (pre ++ be32 a.show_len ++ a.show_val ++
          List.replicate (roundUp4 a.show_val.length - a.show_val.length) 0)
        (k - 4 - roundUp4 a.show_val.length) hc' hk'
      have hbufeq : ((pre ++ be32 a.show_len) ++ (a.show_val ++ [0])) ++
            List.replicate (k - 4 - (a.show_val.length + 1)) 0
          = (pre ++ be32 a.show_len ++ a.show_val ++
              List.replicate (roundUp4 a.show_val.length - a.show_val.length) 0) ++
            List.replicate (k - 4 - roundUp4 a.show_val.length) 0 := by
        have hz := zero_cons_split (k - 4 - (a.show_val.length + 1))
          (roundUp4 a.show_val.length - a.show_val.length)
          (k - 4 - roundUp4 a.show_val.length) (by omega)
        simp only [List.append_assoc, List.singleton_append, List.cons_append,
          List.nil_append]
        rw [hz]
      have hplen : (pre ++ be32 a.show_len ++ a.show_val ++
            List.replicate (roundUp4 a.show_val.length - a.show_val.length) 0).length
          = pre.length + 4 + roundUp4 a.show_val.length := by
        simp [length_be32]
        omega
      have hPP : roundUp4 a.show_len.toNat = roundUp4 a.show_val.length := by
        rw [hL]
      simp only [iio_read_all_attr_go]
      rw [if_pos h0, hw1, hw2, hbufeq, hPP, ← hplen, hIH]
      have hrecv : attr_record_spec a = be32 a.show_len ++
          (a.show_val ++
            List.replicate (roundUp4 a.show_val.length - a.show_val.length) 0) := by
        unfold attr_record_spec
        rw [if_pos h0]
      have hcount : k - 4 - roundUp4 a.show_val.length - framed_len rest
          = k - framed_len (a :: rest) := by omega
      rw [Prod.mk.injEq]
      refine ⟨?_, ?_⟩
      · simp only [framed_spec, hrecv, hcount, List.append_assoc]
      · rw [hplen]
        omega
    · have hrl : (attr_record_spec a).length = 4 := by
        rw [hrec, if_neg h0]
      have hk' : framed_len rest + 1 ≤ k - 4 := by omega
      have hIH := read_all_go_spec rest (pre ++ be32 a.show_len) (k - 4) hc' hk'
      have hplen : (pre ++ be32 a.show_len).length = pre.length + 4 := by
        simp [length_be32]
      simp only [iio_read_all_attr_go]
      rw [if_neg h0, hw1, ← hplen, hIH]
      have hrecv : attr_record_spec a = be32 a.show_len := by
        unfold attr_record_spec
        rw [if_neg h0]
        simp
      have hcount : k - 4 - framed_len rest = k - framed_len (a :: rest) := by omega
      rw [Prod.mk.injEq]
      refine ⟨?_, ?_⟩
      · simp only [framed_spec, hrecv, hcount, List.append_assoc]
      · rw [hplen]
        omega

theorem mem_takeWhile_isDigit : ∀ (l : List Char) (c : Char),
    c ∈ l.takeWhile Char.isDigit → c.isDigit = true
  | [], c, h => by simp at h
  | x :: xs, c, h => by
    by_cases hx : x.isDigit
    · rw [List.takeWhile_cons_of_pos hx] at h
      rcases List.mem_cons.mp h with rfl | h'
      · exact hx
      · exact mem_takeWhile_isDigit xs c h'
    · rw [List.takeWhile_cons_of_neg hx] at h
      simp at h

theorem takeWhile_nondigit (t : List Char) (ht : ∀ c ∈ t, c.isDigit = false) :
    t.takeWhile Char.isDigit = [] ∧ t.dropWhile Char.isDigit = t := by
  cases t with
  | nil => simp
  | cons c cs =>
    have hc : ¬ c.isDigit := by simp [ht c (by simp)]
    exact ⟨List.takeWhile_cons_of_neg hc, List.dropWhile_cons_of_neg hc⟩

theorem dropWhile_ne_nil_of_last (s : List Char) (hne : s ≠ [])
    (hs : ∀ c, s.getLast? = some c → c.isDigit = false) :
    s.dropWhile Char.isDigit ≠ [] := by
  intro hd
  have htw : s.takeWhile Char.isDigit = s := by
    have h := List.takeWhile_append_dropWhile (p := Char.isDigit) (l := s)
    rw [hd] at h
    simpa using h
  have hsome : (s.getLast?).isSome = true := by
    rw [List.getLast?_eq_getLast s hne]; rfl
  obtain ⟨c, hc⟩ := Option.isSome_iff_exists.mp hsome
  have hcd : c.isDigit = true := by
    apply mem_takeWhile_isDigit s c
    rw [htw]
    exact List.mem_of_getLast?_eq_some hc
  rw [hs c hc] at hcd
  exact Bool.false_ne_true hcd

theorem getLast?_dropWhile (s : List Char)
    (hne : s.dropWhile Char.isDigit ≠ []) :
    (s.dropWhile Char.isDigit).getLast? = s.getLast? := by
  conv_rhs => rw [← List.takeWhile_append_dropWhile (p := Char.isDigit) (l := s)]
  rw [List.getLast?_append]
  have hsome : ((s.dropWhile Char.isDigit).getLast?).isSome = true := by
    rw [List.getLast?_eq_getLast _ hne]; rfl
  obtain ⟨c, hc⟩ := Option.isSome_iff_exists.mp hsome
  simp [hc]

/-- The scan loop leaves the candidate id untouched over a digit-free
stretch. -/
theorem go_nondigit (t : List Char) (ht : ∀ c ∈ t, c.isDigit = false) :
    ∀ acc, iio_get_channel_number_go t acc = acc := by
  induction t with
  | nil => intro acc; simp [iio_get_channel_number_go]
  | cons c cs ih =>
    intro acc
    have hc : ¬ c.isDigit := by simp [ht c (by simp)]
    rw [iio_get_channel_number_go]
    rw [if_neg hc]
    exact ih (fun x hx => ht x (by simp [hx])) acc

/-- Whatever the accumulator, scanning a string that decomposes as
`s ++ r ++ t` — where `s` does not end in a digit, `r` is a non-empty digit
run, and `t` holds no digit — yields the value of `r`. -/
theorem go_last_run_fuel : ∀ (n : Nat) (s : List Char), s.length ≤ n →
    (∀ c, s.getLast? = some c → c.isDigit = false) →
    ∀ (r t : List Char) (acc : Int), r ≠ [] → (∀ c ∈ r, c.isDigit = true) →
    (∀ c ∈ t, c.isDigit = false) →
    iio_get_channel_number_go (s ++ r ++ t) acc = (digits_val r : Int) := by
  intro n
  induction n with
  | zero =>
    intro s hlen _ r t acc hr hrd ht
    have hs0 : s = [] := List.length_eq_zero.mp (Nat.le_zero.mp hlen)
    subst hs0
    cases r with
    | nil => exact absurd rfl hr
    | cons c r' =>
      have hc : c.isDigit = true := hrd c (by simp)
      simp only [List.nil_append, List.cons_append]
      rw [iio_get_channel_number_go, if_pos hc]
      have h1 : (r' ++ t).takeWhile Char.isDigit = r' := by
        rw [List.takeWhile_append_of_pos (fun a ha => hrd a (by simp [ha])),
          (takeWhile_nondigit t ht).1, List.append_nil]
      have h2 : (r' ++ t).dropWhile Char.isDigit = t := by
        rw [List.dropWhile_append_of_pos (fun a ha => hrd a (by simp [ha])),
          (takeWhile_nondigit t ht).2]
      rw [h1, h2, go_nondigit t ht]
  | succ n ih =>
    intro s hlen hs r t acc hr hrd ht
    cases s with
    | nil =>
      exact ih [] (by simp) (by simp) r t acc hr hrd ht
    | cons c s' =>
      by_cases hc : c.isDigit = true
      · have hne : (c :: s') ≠ [] := by simp
        have hd : (c :: s').dropWhile Char.isDigit ≠ [] :=
          dropWhile_ne_nil_of_last _ hne hs
        have hds : (c :: s').dropWhile Char.isDigit = s'.dropWhile Char.isDigit := by
          rw [List.dropWhile_cons_of_pos hc]
        rw [hds] at hd
        simp only [List.cons_append]
        rw [iio_get_channel_number_go, if_pos hc]
        have hsplit : (s' ++ (r ++ t)).dropWhile Char.isDigit
            = s'.dropWhile Char.isDigit ++ (r ++ t) := by
          rw [List.dropWhile_append]
          simp [hd]
        rw [List.append_assoc s' r t, hsplit, ← List.append_assoc]
        apply ih (s'.dropWhile Char.isDigit)
        · have := (List.dropWhile_sublist (l := s') (p := Char.isDigit)).length_le
          simp at hlen
          omega
        · intro x hx
          apply hs
          rw [← getLast?_dropWhile (c :: s') (by rwa [hds]), hds]
          exact hx
        · exact hr
        · exact hrd
        · exact ht
      · simp only [List.cons_append]
        rw [iio_get_channel_number_go, if_neg (by simp [hc])]
        apply ih s'
        · simp at hlen; omega
        · intro x hx
          apply hs
          cases s' with
          | nil => simp at hx
          | cons y ys =>
            rw [List.getLast?_cons_cons]
            exact hx
        · exact hr
        · exact hrd
        · exact ht

theorem land_eq_zero_iff (a b : Nat) :
    a &&& b = 0 ↔ ∀ i, ¬(a.testBit i = true ∧ b.testBit i = true) := by
  constructor
  · intro h i hi
    have h2 := congrArg (fun x => Nat.testBit x i) h
    simp [Nat.testBit_land, hi.1, hi.2] at h2
  · intro h
    apply Nat.eq_of_testBit_eq
    intro i
    rw [Nat.testBit_land, Nat.zero_testBit]
    rcases Bool.eq_false_or_eq_true (a.testBit i) with ha | ha
    · rcases Bool.eq_false_or_eq_true (b.testBit i) with hb | hb
      · exact absurd ⟨ha, hb⟩ (h i)
      · simp [hb]
    · simp [ha]

/-- `0xFFFFFFFF >> (32 - n)` is the low mask with `n` one bits. -/
theorem shift_mask_eq (n : Nat) (h : n ≤ 32) :
    4294967295 >>> (32 - n) = 2 ^ n - 1 := by
  apply Nat.eq_of_testBit_eq
  intro i
  rw [Nat.testBit_shiftRight,
    show (4294967295 : Nat) = 2 ^ 32 - 1 by norm_num,
    Nat.testBit_two_pow_sub_one, Nat.testBit_two_pow_sub_one, decide_eq_decide]
  omega

/-- `mask & ~ch_mask == 0` — the open-time validity test — holds exactly when
every set bit of `mask` lies below the channel count. -/
theorem mask_in_range_iff (n m : Nat) (hn : n ≤ 32) (hm : m < 2 ^ 32) :
    m &&& (4294967295 ^^^ (2 ^ n - 1)) = 0 ↔ m < 2 ^ n := by
  rw [land_eq_zero_iff]
  constructor
  · intro h
    have hmod : m = m % 2 ^ n := by
      apply Nat.eq_of_testBit_eq
      intro i
      rw [Nat.testBit_mod_two_pow]
      by_cases hi : i < n
      · simp [hi]
      · simp only [show decide (i < n) = false by simp [hi], Bool.false_and]
        by_cases h32 : i < 32
        · by_contra htb
          apply h i
          constructor
          · simpa using htb
          · rw [show (4294967295 : Nat) = 2 ^ 32 - 1 by norm_num,
              Nat.testBit_xor, Nat.testBit_two_pow_sub_one,
              Nat.testBit_two_pow_sub_one]
            simp [h32, hi]
        · exact Nat.testBit_lt_two_pow
            (lt_of_lt_of_le hm (Nat.pow_le_pow_right (by norm_num) (by omega)))
    rw [hmod]
    exact Nat.mod_lt _ (Nat.two_pow_pos n)
  · rintro hlt i ⟨hmi, hxi⟩
    have hin : i < n := by
      by_contra hge
      rw [Nat.testBit_lt_two_pow
        (lt_of_lt_of_le hlt (Nat.pow_le_pow_right (by norm_num) (by omega)))] at hmi
      exact Bool.false_ne_true hmi
    rw [show (4294967295 : Nat) = 2 ^ 32 - 1 by norm_num,
      Nat.testBit_xor, Nat.testBit_two_pow_sub_one,
      Nat.testBit_two_pow_sub_one] at hxi
    have : i < 32 := by omega
    simp [this, hin] at hxi

theorem get_interface_set_mask (l : List iio_interface) (d : String) (m : Nat) :
    iio_get_interface d (set_mask_first l d m)
      = (iio_get_interface d l).map (fun i => { i with ch_mask := m }) := by
  induction l with
  | nil => simp [set_mask_first, iio_get_interface]
  | cons i rest ih =>
    simp only [iio_get_interface] at ih ⊢
    by_cases hi : i.name == d
    · simp [set_mask_first, hi, List.find?_cons]
    · simp [set_mask_first, hi, List.find?_cons, ih]

theorem head_writeAt_42 (l : List Nat) (h : l ≠ []) :
    (writeAt l 0 [42]).head? = some 42 := by
  cases l with
  | nil => exact absurd rfl h
  | cons b bs => simp [writeAt]

/-- The receive loop over a trace of successful reads followed by an error
returns the partial byte count, the error as last status, and a buffer whose
first byte has been overwritten with the sentinel. -/
theorem network_read_loop_err : ∀ (ds : List (List Nat)) (e : Int) (i len : Nat)
    (buf : List Nat), i + sum_lens ds < len →
    ∃ buf', network_read_loop (ds.map recv_result.ok ++ [recv_result.err e]) i len buf
        = some (i + sum_lens ds, e, writeAt buf' 0 [42]) ∧ buf'.length = buf.length
  | [], e, i, len, buf, h => by
    refine ⟨buf, ?_, rfl⟩
    simp [network_read_loop, sum_lens]
  | d :: ds', e, i, len, buf, h => by
    have hsum : sum_lens (d :: ds') = d.length + sum_lens ds' := by
      simp [sum_lens]
    have hlt : i + d.length + sum_lens ds' < len := by
      rw [hsum] at h; omega
    obtain ⟨buf', h1, h2⟩ := network_read_loop_err ds' e (i + d.length) len
      (writeAt buf i d) hlt
    refine ⟨buf', ?_, ?_⟩
    · simp only [List.map_cons, List.cons_append, network_read_loop]
      rw [if_pos (by omega : i + d.length < len)]
      simp only [List.append_eq]
      rw [h1, hsum, ← Nat.add_assoc]
    · rw [h2, length_writeAt]

theorem dispatch_iter_succ (k : Nat) (s : mux_state) :
    dispatch_iter (k + 1) s =
      match dispatch_step s [] with
      | .ok s' => dispatch_iter k s'
      | r => r := rfl

/-! ## Claim theorems -/

/-- C1: aggregate read (empty attribute name) produces, for each attribute in
list order, a record of the handler's returned length as 4 big-endian bytes of
a signed 32-bit value — written even when the length is negative — followed,
only when the length is non-negative, by that many value bytes and zero
padding to a multiple of 4; the dispatcher returns the total byte count.
Hypotheses: the show handlers honour the C contract (returned length = length
of the C string written, within `ssize_t` range), and the caller's
zero-initialised buffer is large enough (with the total below the `int16_t`
cursor range). -/
theorem iio_read_all_attr_framing (attrs : List iio_attribute) (n : Nat)
    (hcontract : ∀ a ∈ attrs, 0 ≤ a.show_len → a.show_val.length = a.show_len.toNat)
    (hrange : ∀ a ∈ attrs, -2147483648 ≤ a.show_len ∧ a.show_len < 2147483648)
    (hsize : framed_len attrs < 32768)
    (hn : framed_len attrs + 1 ≤ n) :
    iio_read_all_attr attrs (List.replicate n 0) =
      (framed_spec attrs ++ List.replicate (n - framed_len attrs) 0,
        framed_len attrs) := by
  have h := read_all_go_spec attrs [] n hcontract hn
  simpa [iio_read_all_attr] using h

theorem iio_read_all_attr_framing_witness :
    iio_read_all_attr [demo_attr_hello, demo_attr_fail] (List.replicate 17 0) =
      (framed_spec [demo_attr_hello, demo_attr_fail] ++
        List.replicate (17 - framed_len [demo_attr_hello, demo_attr_fail]) 0,
        framed_len [demo_attr_hello, demo_attr_fail]) :=
  iio_read_all_attr_framing [demo_attr_hello, demo_attr_fail] 17
    (by decide) (by decide) (by decide) (by decide)

/-- C2 (code bug): the aggregate write path is claimed to read a 4-byte
big-endian length from the input buffer's cursor; the C code instead computes
`bswap_constant_32((uint32_t)(buf + j))` — a byte swap of the buffer *address*
— and truncates it to `int16_t`. With the buffer at the non-NULL base address
0x20000000 (so the iio.c:381 NULL guard does not fire) and its first framed
record declaring 5 value bytes, the store handler receives the byte-swapped
address 32 and a 32-byte slice (clipped to the 8 bytes available) instead of
the declared 5 bytes; only the "returns the caller-supplied total length"
part of the claim holds. The final conjunct shows the modelled NULL-buffer
guard: at address 0 the function returns `FAILURE` with no store call. -/
theorem iio_write_all_attr_address_bug :
    (iio_write_all_attr 536870912 demo_wr_buf [demo_attr_hello] 12).1 = 12 ∧
    be32_at demo_wr_buf 0 = 5 ∧
    (iio_write_all_attr 536870912 demo_wr_buf [demo_attr_hello] 12).2
      = [⟨32, [104, 101, 108, 108, 111, 0, 0, 0]⟩] ∧
    iio_write_all_attr 0 demo_wr_buf [demo_attr_hello] 12 = (FAILURE, []) :=
  ⟨rfl, rfl, rfl, rfl⟩

/-- C3 (code bug): after `register(A); register(B); unregister(A)` the claim
expects exactly B discoverable. The C function builds the pruned array but
never stores it in the global `iio_interfaces`, and frees the old registry
container, so the registry is left dangling — no record is discoverable by
defined behaviour — and the no-match case also frees the registry instead of
leaving it unchanged (returning the generic -1, not a NotFound code). -/
theorem iio_unregister_dangling_registry :
    iio_register_s reg_state.null demo_ifA
      = some (reg_state.live [demo_ifA], SUCCESS) ∧
    iio_register_s (reg_state.live [demo_ifA]) demo_ifB
      = some (reg_state.live [demo_ifA, demo_ifB], SUCCESS) ∧
    iio_unregister_s (reg_state.live [demo_ifA, demo_ifB]) demo_ifA
      = some (reg_state.dangling, SUCCESS) ∧
    iio_get_interface_s reg_state.dangling "B" = none ∧
    iio_unregister_s (reg_state.live [demo_ifA, demo_ifB]) demo_ifC
      = some (reg_state.dangling, FAILURE) :=
  ⟨rfl, rfl, rfl, rfl, rfl⟩

/-- C4 (counterexample): `open` with mask 0x1F on a 4-channel device fails
with `-ENOENT` — the NotFound code — not with `-EINVAL` (InvalidArgument) as
the claim states. -/
theorem iio_open_dev_bad_mask_counterexample :
    iio_open_dev [demo_dev4] "dev" 1 31 = ([demo_dev4], -ENOENT) ∧
    -ENOENT ≠ -EINVAL :=
  ⟨rfl, by decide⟩

/-- C4 (amended): for a registered device with `1 ≤ num_ch ≤ 32` and a 32-bit
mask, `open` fails with `-ENOENT` (not `-EINVAL`) exactly when the mask has a
bit set at an index `≥ num_ch`, leaving the registry unchanged; otherwise it
succeeds, stores the mask in the resolved interface, and `get_mask` returns
exactly that mask. -/
theorem iio_open_dev_mask_check (l : List iio_interface) (d : String)
    (ss m : Nat) (iface : iio_interface)
    (hfind : iio_get_interface d l = some iface)
    (hn1 : 1 ≤ iface.iio.num_ch) (hn2 : iface.iio.num_ch ≤ 32)
    (hm : m < 2 ^ 32) :
    (¬ m < 2 ^ iface.iio.num_ch → iio_open_dev l d ss m = (l, -ENOENT)) ∧
    (m < 2 ^ iface.iio.num_ch →
      iio_open_dev l d ss m = (set_mask_first l d m, SUCCESS) ∧
      iio_get_mask (iio_open_dev l d ss m).1 d = (SUCCESS, some m)) := by
  have hsh : (4294967295 : Nat) >>> (32 - iface.iio.num_ch)
      = 2 ^ iface.iio.num_ch - 1 := shift_mask_eq _ hn2
  have hiff := mask_in_range_iff iface.iio.num_ch m hn2 hm
  have hopen : iio_open_dev l d ss m =
      if m &&& (4294967295 ^^^ (2 ^ iface.iio.num_ch - 1)) ≠ 0 then (l, -ENOENT)
      else (set_mask_first l d m, SUCCESS) := by
    simp only [iio_open_dev, hfind, hsh]
  constructor
  · intro hbad
    rw [hopen, if_pos (fun h0 => hbad (hiff.mp h0))]
  · intro hgood
    have heq : iio_open_dev l d ss m = (set_mask_first l d m, SUCCESS) := by
      rw [hopen, if_neg (fun hne => hne (hiff.mpr hgood))]
    refine ⟨heq, ?_⟩
    rw [heq]
    simp only [iio_get_mask, get_interface_set_mask, hfind, Option.map_some']

theorem iio_open_dev_mask_check_witness :
    iio_open_dev [demo_dev4] "dev" 1 15
      = (set_mask_first [demo_dev4] "dev" 15, SUCCESS) ∧
    iio_get_mask (iio_open_dev [demo_dev4] "dev" 1 15).1 "dev"
      = (SUCCESS, some 15) :=
  (iio_open_dev_mask_check [demo_dev4] "dev" 1 15 demo_dev4 rfl
    (by decide) (by decide) (by decide)).2 (by decide)

/-- C5 (code bug): requesting an absent channel is claimed to return NotFound
without invoking any handler; the C code instead indexes
`iio_device->channels` with the negative id returned by the failed lookup —
an out-of-bounds access — because `iio_rd_wr_attribute` never tests
`channel_id < 0`. The absent-attribute halves of the claim (channel scope and
device scope) do behave as claimed: `-ENOENT` with no handler invoked. -/
theorem iio_rd_wr_attribute_missing_channel_oob :
    iio_rd_wr_attribute ⟨"dev", "voltage1", "raw", false⟩ 0 [] 0 demo_dev_ch false
      = (rd_wr_result.oob_channel (-ENOENT), []) ∧
    iio_rd_wr_attribute ⟨"dev", "voltage0", "nope", false⟩ 0 [] 0 demo_dev_ch false
      = (rd_wr_result.ret (-ENOENT), []) ∧
    iio_rd_wr_attribute ⟨"dev", "", "nope", false⟩ 0 [] 0 demo_dev_ch false
      = (rd_wr_result.ret (-ENOENT), []) :=
  ⟨rfl, rfl, rfl⟩

/-- C6: the numeric channel id is the value of the last contiguous run of
decimal digits anywhere in the name, and a digit-free name yields the -1
sentinel rather than an error. (The run's value is assumed to fit in 31 bits,
where the C `strtol`/`int32_t` pipeline is exact.) -/
theorem iio_get_channel_number_last_run :
    (∀ (name : String) (s r t : List Char), name.data = s ++ r ++ t →
      (s.getLast?.all fun c => !c.isDigit) = true →
      r ≠ [] → (∀ c ∈ r, c.isDigit = true) → (∀ c ∈ t, c.isDigit = false) →
      digits_val r < 2147483648 →
      iio_get_channel_number name = (digits_val r : Int)) ∧
    (∀ (name : String), (∀ c ∈ name.data, c.isDigit = false) →
      iio_get_channel_number name = -1) := by
  constructor
  · intro name s r t hdata hs hr hrd ht _hfit
    have hs' : ∀ c, s.getLast? = some c → c.isDigit = false := by
      intro c hc
      rw [hc] at hs
      simpa using hs
    unfold iio_get_channel_number
    rw [hdata]
    exact go_last_run_fuel s.length s le_rfl hs' r t FAILURE hr hrd ht
  · intro name hnd
    unfold iio_get_channel_number
    exact go_nondigit name.data hnd FAILURE

theorem iio_get_channel_number_last_run_witness :
    iio_get_channel_number "voltage2" = 2 ∧
    iio_get_channel_number "altvoltage10" = 10 ∧
    iio_get_channel_number "temp" = -1 := by
  refine ⟨?_, ?_, ?_⟩
  · exact (iio_get_channel_number_last_run.1 "voltage2" "voltage".data ['2'] []
      (by decide) (by decide) (by decide) (by decide) (by decide)
      (by decide)).trans (by decide)
  · exact (iio_get_channel_number_last_run.1 "altvoltage10" "altvoltage".data
      ['1', '0'] [] (by decide) (by decide) (by decide) (by decide) (by decide)
      (by decide)).trans (by decide)
  · exact iio_get_channel_number_last_run.2 "temp" (by decide)

/-- C7 (code bug): the four buffer-transfer entry points are claimed to fail
NotFound for an unregistered device and NotSupported for a missing callback;
the C code never checks the interface lookup result, so an unregistered
device dereferences a NULL pointer (the `none` outcome), and a missing
callback returns `-ENOENT` — the NotFound code — rather than a distinct
NotSupported code. Delegation itself does pass the byte count / offset and
the stored channel mask, as the callback-present conjuncts show. -/
theorem iio_transfer_null_deref :
    iio_transfer_dev_to_mem [] "adc" 4 = none ∧
    iio_read_dev [] "adc" 0 4 = none ∧
    iio_transfer_mem_to_dev [] "adc" 4 = none ∧
    iio_write_dev [] "adc" 0 4 = none ∧
    iio_transfer_dev_to_mem [demo_dev4] "dev" 4 = some (-ENOENT) ∧
    iio_transfer_dev_to_mem [demo_if_cb] "dev" 4 = some 4005 ∧
    iio_read_dev [demo_if_cb] "dev" 2 7 = some 275 :=
  ⟨rfl, rfl, rfl, rfl, rfl, rfl, rfl⟩

/-- C8: at the start of a dispatch step with an Active current slot, the
connection is pushed onto the queue tail and the slot cleared before the next
command is read; consequently, with two connections both staying connected,
consecutive dispatch steps strictly alternate which connection is current. -/
theorem iio_step_round_robin :
    (∀ (q : List Nat) (h : Nat), q.length < MAX_SOCKET_TO_HANDLE →
      iio_step ⟨q, sock_slot.active h⟩
        = ⟨Except.ok (), ⟨q ++ [h], sock_slot.empty⟩, true⟩) ∧
    (∀ (c1 c2 n : Nat),
      dispatch_iter (2 * n) ⟨[c2], sock_slot.active c1⟩
        = step_result.ok ⟨[c2], sock_slot.active c1⟩ ∧
      dispatch_iter (2 * n + 1) ⟨[c2], sock_slot.active c1⟩
        = step_result.ok ⟨[c1], sock_slot.active c2⟩) := by
  constructor
  · intro q h hlen
    have hp : cb_push q h = Except.ok (q ++ [h]) := by
      unfold cb_push
      rw [if_pos hlen]
    simp [iio_step, hp]
  · intro c1 c2 n
    induction n generalizing c1 c2 with
    | zero => exact ⟨rfl, rfl⟩
    | succ n ih =>
      have hA : ∀ a b : Nat, dispatch_iter (2 * (n + 1)) ⟨[b], sock_slot.active a⟩
          = step_result.ok ⟨[b], sock_slot.active a⟩ := by
        intro a b
        have hstep : dispatch_step ⟨[b], sock_slot.active a⟩ []
            = step_result.ok ⟨[a], sock_slot.active b⟩ := rfl
        have h2n : 2 * (n + 1) = (2 * n + 1) + 1 := by ring
        rw [h2n, dispatch_iter_succ, hstep]
        exact (ih b a).2
      refine ⟨hA c1 c2, ?_⟩
      have hstep : dispatch_step ⟨[c2], sock_slot.active c1⟩ []
          = step_result.ok ⟨[c1], sock_slot.active c2⟩ := rfl
      rw [dispatch_iter_succ, hstep]
      exact hA c2 c1

theorem iio_step_round_robin_witness :
    iio_step ⟨[7], sock_slot.active 5⟩
      = ⟨Except.ok (), ⟨[7, 5], sock_slot.empty⟩, true⟩ ∧
    dispatch_iter (2 * 1) ⟨[7], sock_slot.active 5⟩
      = step_result.ok ⟨[7], sock_slot.active 5⟩ ∧
    dispatch_iter (2 * 1 + 1) ⟨[7], sock_slot.active 5⟩
      = step_result.ok ⟨[5], sock_slot.active 7⟩ :=
  ⟨iio_step_round_robin.1 [7] 5 (by decide),
    (iio_step_round_robin.2 5 7 1).1, (iio_step_round_robin.2 5 7 1).2⟩

/-- C9: during a phy-level network read, a peer-closed (`-ENOTCONN`) error on
the current connection releases it and sets the slot to Dead (queue
untouched, so the other queued connections are unaffected and the dead
connection — no longer in the queue — is never pushed back by a later step,
as the final conjunct shows); any other read error leaves the slot Active,
and in both cases the read aborts with the sentinel byte written at the start
of the destination buffer and the partial byte count returned. -/
theorem network_read_error_paths (q : List Nat) (c : Nat) (ds : List (List Nat))
    (e : Int) (len : Nat) (buf : List Nat)
    (hlen : sum_lens ds < len) (hbuf : buf ≠ []) :
    (∃ buf', network_read ⟨q, sock_slot.active c⟩
        (ds.map recv_result.ok ++ [recv_result.err e]) len buf
        = some ((sum_lens ds : Int),
            (if e = -ENOTCONN then (⟨q, sock_slot.dead⟩ : mux_state)
             else ⟨q, sock_slot.active c⟩), buf')
      ∧ buf'.head? = some 42 ∧ buf'.length = buf.length) ∧
    iio_step ⟨q, sock_slot.dead⟩ = ⟨Except.ok (), ⟨q, sock_slot.empty⟩, true⟩ := by
  obtain ⟨buf', h1, h2⟩ := network_read_loop_err ds e 0 len buf (by omega)
  constructor
  · refine ⟨writeAt buf' 0 [42], ?_, ?_, ?_⟩
    · simp only [network_read]
      rw [h1]
      by_cases he : e = -ENOTCONN
      · simp [he]
      · simp [he]
    · have hbuf' : buf' ≠ [] := by
        intro hnil
        apply hbuf
        apply List.length_eq_zero.mp
        rw [← h2, hnil]
        rfl
      exact head_writeAt_42 buf' hbuf'
    · rw [length_writeAt, h2]
  · rfl

theorem network_read_error_paths_witness :
    (∃ buf', network_read ⟨[7], sock_slot.active 5⟩
        ([[1, 2]].map recv_result.ok ++ [recv_result.err (-ENOTCONN)]) 10
        (List.replicate 10 0)
        = some ((sum_lens [[1, 2]] : Int),
            (if (-ENOTCONN : Int) = -ENOTCONN then (⟨[7], sock_slot.dead⟩ : mux_state)
             else ⟨[7], sock_slot.active 5⟩), buf')
      ∧ buf'.head? = some 42 ∧ buf'.length = (List.replicate 10 (0 : Nat)).length) ∧
    iio_step ⟨[7], sock_slot.dead⟩ = ⟨Except.ok (), ⟨[7], sock_slot.empty⟩, true⟩ :=
  network_read_error_paths [7] 5 [[1, 2]] (-ENOTCONN) 10 (List.replicate 10 0)
    (by decide) (by decide)

/-- C10: if the current slot is Active and pushing the connection back onto
the (full) queue fails, the step returns that error immediately: no protocol
command is read and the current slot still holds the same Active
connection. -/
theorem iio_step_push_failure (q : List Nat) (h : Nat)
    (hq : MAX_SOCKET_TO_HANDLE ≤ q.length) :
    iio_step ⟨q, sock_slot.active h⟩
      = ⟨Except.error FAILURE, ⟨q, sock_slot.active h⟩, false⟩ := by
  have hp : cb_push q h = Except.error FAILURE := by
    unfold cb_push
    rw [if_neg (by omega)]
  simp [iio_step, hp]

theorem iio_step_push_failure_witness :
    iio_step ⟨[1, 2, 3, 4], sock_slot.active 9⟩
      = ⟨Except.error FAILURE, ⟨[1, 2, 3, 4], sock_slot.active 9⟩, false⟩ :=
  iio_step_push_failure [1, 2, 3, 4] 9 (by decide)
